import Mathlib

/-!
Shallow embedding of the ACK-frame codec (`wire` package, `ack_frame.go`) and of
the stream-map subsystem (`streams_map.go`, `streams_map_incoming_generic.go`)
of this QUIC implementation, together with theorems settling the frozen claims.

Machine integers (Go `uint64` / `protocol.PacketNumber`) are embedded as `Nat`
with explicit wrap-around (`% 2^64`) at every operation where Go arithmetic can
overflow.  Go byte readers are embedded as `List Nat` (each entry one byte) and
fallible operations return `Except`.
-/

deriving instance DecidableEq for Except

namespace QuicGo

/-- Modulus of Go `uint64` arithmetic. -/
def W64 : Nat := 18446744073709551616

/-- Wrapping `uint64` addition, as performed on Go `protocol.PacketNumber`. -/
def wadd (a b : Nat) : Nat := (a + b) % W64

/-- Wrapping `uint64` subtraction, as performed on Go `protocol.PacketNumber`. -/
def wsub (a b : Nat) : Nat := (a % W64 + (W64 - b % W64)) % W64

/-- The two wire dialects.  The source's `protocol.VersionNumber` enters the ACK
codec only through the capability `UsesIETFAckFrame`, so the embedding keeps
exactly that one bit. -/
inductive VersionNumber
  | legacy
  | ietf
deriving DecidableEq, Repr

/-- Capability query on the version (source: `version.UsesIETFAckFrame()`). -/
def VersionNumber.UsesIETFAckFrame : VersionNumber → Bool
  | .legacy => false
  | .ietf => true

/-- Errors of the ACK parser.  `eof` stands for any of the `io` read errors.
`invalidAckRanges` is `ErrInvalidAckRanges`, `invalidFirstAckRange` is
`ErrInvalidFirstAckRange`. -/
inductive AckErr
  | eof
  | invalidAckRanges
  | invalidFirstAckRange
deriving DecidableEq, Repr

/-- Source `bytes.Reader.ReadByte`: one byte or an EOF error. -/
def readByteE : List Nat → Except AckErr (Nat × List Nat)
  | [] => .error .eof
  | b :: bs => .ok (b % 256, bs)

/-- Read `n` raw bytes (failing with EOF when the stream is short). -/
def readBytes : Nat → List Nat → Except AckErr (List Nat × List Nat)
  | 0, bs => .ok ([], bs)
  | _ + 1, [] => .error .eof
  | n + 1, b :: bs =>
    match readBytes n bs with
    | .error e => .error e
    | .ok (xs, rest) => .ok (b % 256 :: xs, rest)

/-- Big-endian value of a byte list (most significant byte first). -/
def beVal (l : List Nat) : Nat := l.foldl (fun acc b => acc * 256 + b % 256) 0

/-- Little-endian value of a byte list (least significant byte first). -/
def leVal (l : List Nat) : Nat := l.foldr (fun b acc => acc * 256 + b % 256) 0

/-- Modelled from the spec: `utils.GetByteOrder(version).ReadUintN(r, n)` lives
in the `internal/utils` package that is not among the provided sources.  Per
spec section 4.B the legacy dialect reads multi-byte integers big-endian and the
IETF dialect little-endian; EOF is a distinguished failure. -/
def readUintN (v : VersionNumber) (n : Nat) (bs : List Nat) :
    Except AckErr (Nat × List Nat) :=
  match readBytes n bs with
  | .error e => .error e
  | .ok (xs, rest) =>
    .ok ((if v.UsesIETFAckFrame then leVal xs else beVal xs), rest)

/-- Big-endian serialization of the low `n` bytes of `x`. -/
def beBytes : Nat → Nat → List Nat
  | 0, _ => []
  | n + 1, x => (x / 256 ^ n) % 256 :: beBytes n x

/-- Little-endian serialization of the low `n` bytes of `x`. -/
def leBytes : Nat → Nat → List Nat
  | 0, _ => []
  | n + 1, x => x % 256 :: leBytes n (x / 256)

/-- Modelled from the spec: the `utils` byte-order writers
(`WriteUint16/32/48/64`), big-endian in the legacy dialect and little-endian in
the IETF dialect (spec section 4.B). -/
def writeUintN (v : VersionNumber) (n x : Nat) : List Nat :=
  if v.UsesIETFAckFrame then leBytes n x else beBytes n x

/-- Modelled from the spec: `utils.ReadUfloat16` decoding (source in
`internal/utils`, not among the provided files).  A 16-bit unsigned float with a
5-bit exponent and 11-bit mantissa (spec sections 4.B and glossary): values
below `2^12` are denormal and literal, otherwise the mantissa carries a hidden
bit and the exponent field is biased by one. -/
def ufloat16Decode (x : Nat) : Nat :=
  if x < 4096 then x
  else ((x % 2048) + 2048) <<< (x / 2048 - 1)

/-- Modelled from the spec: `utils.WriteUfloat16` encoding (same missing
source).  Small values are stored literally, values beyond the largest
representable one saturate to `0xFFFF`, and otherwise the value is shifted so
the mantissa (with hidden bit) fits 12 bits and the exponent is stored biased. -/
def ufloat16Encode (x : Nat) : Nat :=
  if x < 4096 then x
  else if 4095 <<< 30 ≤ x then 65535
  else ((x >>> (Nat.log2 x - 11)) + ((Nat.log2 x - 11) <<< 11))

/-- Read an ACK-delay: a byte-order dependent `uint16`, ufloat16-decoded. -/
def readUfloat16 (v : VersionNumber) (bs : List Nat) :
    Except AckErr (Nat × List Nat) :=
  match readUintN v 2 bs with
  | .error e => .error e
  | .ok (raw, rest) => .ok (ufloat16Decode raw, rest)

/-- Write an ACK-delay as a byte-order dependent ufloat16-encoded `uint16`. -/
def writeUfloat16 (v : VersionNumber) (x : Nat) : List Nat :=
  writeUintN v 2 (ufloat16Encode x)

/-- Modelled from the spec: `protocol.GetPacketNumberLength` (package
`internal/protocol`, not among the provided sources).  Per spec section 4.A it
returns the smallest packet-number length (in bytes, from {1,2,4,6}) that
encodes the number. -/
def GetPacketNumberLength (p : Nat) : Nat :=
  if p < 256 then 1
  else if p < 65536 then 2
  else if p < 4294967296 then 4
  else 6

/-- Source `wire.AckRange`: a closed interval `[First, Last]` of packet
numbers. -/
structure AckRange where
  First : Nat
  Last : Nat
deriving DecidableEq, Repr

/-- Source `wire.AckFrame`.  `DelayTime` is kept in microseconds (the unit in
which the codec reads and writes it); `PacketReceivedTime` is a wall-clock value
that only feeds `time.Since` in `Write`, which the embedding abstracts by using
the current `DelayTime` field as the written delay. -/
structure AckFrame where
  LargestAcked : Nat
  LowestAcked : Nat
  AckRanges : List AckRange
  DelayTime : Nat
deriving DecidableEq, Repr

/-- Source `(*AckFrame).HasMissingRanges`. -/
def AckFrame.HasMissingRanges (f : AckFrame) : Bool :=
  f.AckRanges.length > 0

/-- Adjacency checks of `validateAckRanges`' second loop: each range strictly
below its predecessor with a gap of at least one packet. -/
def validAdjacent : AckRange → List AckRange → Bool
  | _, [] => true
  | prev, r :: rest =>
    if prev.First ≤ r.First then false
    else if prev.First ≤ wadd r.Last 1 then false
    else validAdjacent r rest

/-- Source `(*AckFrame).validateAckRanges`. -/
def AckFrame.validateAckRanges (f : AckFrame) : Bool :=
  match f.AckRanges with
  | [] => true
  | [_] => false
  | r0 :: rest =>
    if r0.Last ≠ f.LargestAcked then false
    else if !(f.AckRanges.all fun r => r.First ≤ r.Last) then false
    else validAdjacent r0 rest

/-- The number of gap/length entries serialized for one ACK range whose gap to
its predecessor is `gap`: the source computes `gap/0xFF + 1`, one fewer when
`gap` is a multiple of `0xFF` (as `rangeLength` in `numWritableNackRanges` and
as `num` in `Write`). -/
def nackEntryCount (gap : Nat) : Nat :=
  if gap % 255 = 0 then gap / 255 + 1 - 1 else gap / 255 + 1

/-- Loop body of `(*AckFrame).numWritableNackRanges`: `acc` is the running
`numRanges`, `prev` the previous ACK range; accumulation stops (`break`) when
the running count would reach `0xFF`. -/
def numWritableNackRangesAux : AckRange → List AckRange → Nat → Nat
  | _, [], acc => acc
  | prev, r :: rest, acc =>
    let gap := wsub (wsub prev.First r.Last) 1
    let rangeLength := nackEntryCount gap
    if acc + rangeLength < 255 then numWritableNackRangesAux r rest (acc + rangeLength)
    else acc

/-- Source `(*AckFrame).numWritableNackRanges`. -/
def AckFrame.numWritableNackRanges (f : AckFrame) : Nat :=
  match f.AckRanges with
  | [] => 0
  | r0 :: rest => numWritableNackRangesAux r0 rest 0 + 1

/-- Source `(*AckFrame).getMissingSequenceNumberDeltaLen`. -/
def AckFrame.getMissingSequenceNumberDeltaLen (f : AckFrame) (v : VersionNumber) :
    Nat :=
  let maxRangeLength :=
    if f.HasMissingRanges then
      f.AckRanges.foldl (fun m r => max m (wadd (wsub r.Last r.First) 1)) 0
    else wadd (wsub f.LargestAcked f.LowestAcked) 1
  if maxRangeLength ≤ 255 then 1
  else if maxRangeLength ≤ 65535 then 2
  else if maxRangeLength ≤ 4294967295 then 4
  else if !v.UsesIETFAckFrame then 6
  else 8

/-- Everything `ParseAckFrame` has read before the ack-range validation checks:
the type-byte flags and length codes, the early (IETF) or late (legacy)
`numAckBlocks` byte, the IETF `numTimestamps` byte, `LargestAcked`, the decoded
delay, and the not-yet-consumed rest of the input. -/
structure AckHeader where
  hasMissing : Bool
  largestAckedLen : Nat
  deltaLen : Nat
  numAckBlocks : Nat
  numTimestamps : Nat
  largestAcked : Nat
  delay : Nat
  rest : List Nat
deriving DecidableEq, Repr

/-- Header phase of `ParseAckFrame` (source lines up to the legacy
`numAckBlocks` read): type byte, flag and length decoding, the IETF-only
`numAckBlocks` and `numTimestamps` bytes, `LargestAcked`, the ufloat16 delay,
and the legacy-only `numAckBlocks` byte. -/
def parseAckHeader (v : VersionNumber) (bytes : List Nat) :
    Except AckErr AckHeader := do
  let (typeByte, bs) ← readByteE bytes
  let hasMissing :=
    if v.UsesIETFAckFrame then typeByte &&& 0x10 = 0x10
    else typeByte &&& 0x20 = 0x20
  let largestAckedLen :=
    if v.UsesIETFAckFrame then 1 <<< ((typeByte &&& 0x0c) >>> 2)
    else
      let l := 2 * ((typeByte &&& 0x0c) >>> 2)
      if l = 0 then 1 else l
  let deltaLen :=
    if v.UsesIETFAckFrame then 1 <<< (typeByte &&& 0x03)
    else
      let l := 2 * (typeByte &&& 0x03)
      if l = 0 then 1 else l
  let (numAckBlocks, bs) ←
    if v.UsesIETFAckFrame ∧ hasMissing then readByteE bs else .ok (0, bs)
  let (numTimestamps, bs) ←
    if v.UsesIETFAckFrame then readByteE bs else .ok (0, bs)
  let (largestAcked, bs) ← readUintN v largestAckedLen bs
  let (delay, bs) ← readUfloat16 v bs
  let (numAckBlocks, bs) ←
    if ¬v.UsesIETFAckFrame ∧ hasMissing then readByteE bs
    else .ok (numAckBlocks, bs)
  .ok ⟨hasMissing, largestAckedLen, deltaLen, numAckBlocks, numTimestamps,
       largestAcked, delay, bs⟩

/-- Replace the final element of a list (the source mutates
`frame.AckRanges[len(frame.AckRanges)-1]` in place). -/
def updateLast (f : AckRange → AckRange) : List AckRange → List AckRange
  | [] => []
  | [a] => [f a]
  | a :: rest => a :: updateLast f rest

/-- The `numAckBlocks`-iteration loop of `ParseAckFrame`: reads a gap byte and a
block length per iteration, extending the range list or (inside a long block)
shifting the endpoints of its last range.  Returns the ranges, the
`lastRangeComplete` flag, and the remaining input. -/
def parseAckBlocksLoop (v : VersionNumber) (deltaLen : Nat) :
    Nat → List AckRange → Bool → Bool → List Nat →
    Except AckErr (List AckRange × Bool × List Nat)
  | 0, ranges, _, lastComplete, bs => .ok (ranges, lastComplete, bs)
  | i + 1, ranges, inLongBlock, lastComplete, bs => do
    let (gap, bs) ← readByteE bs
    let (ackBlockLength, bs) ← readUintN v deltaLen bs
    let length := ackBlockLength
    let (ranges, lastComplete) :=
      if inLongBlock then
        (updateLast
          (fun r => ⟨wsub r.First (wadd gap length), wsub r.Last gap⟩) ranges,
         lastComplete)
      else
        let newLast := wsub ((ranges.getLastD ⟨0, 0⟩).First) (wadd gap 1)
        (ranges ++ [⟨wadd (wsub newLast length) 1, newLast⟩], false)
    let lastComplete := if length > 0 then true else lastComplete
    parseAckBlocksLoop v deltaLen i ranges (ackBlockLength = 0) lastComplete bs

/-- Timestamp-record consumption: after the first (delta byte, 4-byte
timestamp) record, each further record is a delta byte and a 2-byte time. -/
def skipTimestampTail (v : VersionNumber) :
    Nat → List Nat → Except AckErr (List Nat)
  | 0, bs => .ok bs
  | n + 1, bs => do
    let (_, bs) ← readByteE bs
    let (_, bs) ← readUintN v 2 bs
    skipTimestampTail v n bs

/-- Tail of `ParseAckFrame` after the range checks: range-list construction (or
the contiguous-range `LowestAcked` computation), range validation, the
legacy-only `numTimestamps` byte, and timestamp consumption. -/
def parseAckChecked (v : VersionNumber) (h : AckHeader) (ackBlockLength : Nat)
    (bs : List Nat) : Except AckErr (AckFrame × List Nat) := do
  let (frame, bs) ←
    if h.hasMissing then
      let r0 : AckRange := ⟨wadd (wsub h.largestAcked ackBlockLength) 1,
                            h.largestAcked⟩
      match parseAckBlocksLoop v h.deltaLen h.numAckBlocks [r0] false false bs
      with
      | .error e => .error e
      | .ok (ranges, lastComplete, bs) =>
        let ranges := if lastComplete then ranges else ranges.dropLast
        let lowest := (ranges.getLastD ⟨0, 0⟩).First
        .ok (({ LargestAcked := h.largestAcked, LowestAcked := lowest,
                AckRanges := ranges, DelayTime := h.delay } : AckFrame), bs)
    else
      let lowest :=
        if h.largestAcked = 0 then 0
        else wsub (wadd h.largestAcked 1) ackBlockLength
      .ok (({ LargestAcked := h.largestAcked, LowestAcked := lowest,
              AckRanges := [], DelayTime := h.delay } : AckFrame), bs)
  if !frame.validateAckRanges then .error .invalidAckRanges
  else do
    let (numTimestamps, bs) ←
      if ¬v.UsesIETFAckFrame then readByteE bs else .ok (h.numTimestamps, bs)
    if numTimestamps > 0 then do
      let (_, bs) ← readByteE bs
      let (_, bs) ← readUintN v 4 bs
      let bs ← skipTimestampTail v (numTimestamps - 1) bs
      .ok (frame, bs)
    else
      .ok (frame, bs)

/-- Body of `ParseAckFrame` after the header: the `numAckBlocks == 0` check,
the first `ackBlockLength` read with its two checks, and the rest. -/
def parseAckRest (v : VersionNumber) (h : AckHeader) :
    Except AckErr (AckFrame × List Nat) :=
  if h.hasMissing ∧ h.numAckBlocks = 0 then .error .invalidAckRanges
  else
    match readUintN v h.deltaLen h.rest with
    | .error e => .error e
    | .ok (ackBlockLength, bs) =>
      if h.largestAcked > 0 ∧ ackBlockLength < 1 then .error .invalidFirstAckRange
      else if ackBlockLength > h.largestAcked then .error .invalidAckRanges
      else parseAckChecked v h ackBlockLength bs

/-- Source `wire.ParseAckFrame`, as the composition of the header phase and the
rest; returns the parsed frame and the unconsumed input suffix. -/
def ParseAckFrame (v : VersionNumber) (bytes : List Nat) :
    Except AckErr (AckFrame × List Nat) :=
  match parseAckHeader v bytes with
  | .error e => .error e
  | .ok h => parseAckRest v h

/-- Errors (and the one `panic`) of `(*AckFrame).Write`.
`tooManyAckRanges` embeds the `panic("AckFrame: Too many ACK ranges")`,
`inconsistentAckLargestAcked`/`inconsistentAckLowestAcked` are the two
`errInconsistentAck...` values and `inconsistentRangesWritten` the final
`"BUG: Inconsistent number of ACK ranges written"` error. -/
inductive AckWriteErr
  | tooManyAckRanges
  | inconsistentAckLargestAcked
  | inconsistentAckLowestAcked
  | inconsistentRangesWritten
deriving DecidableEq, Repr

/-- The `missingSequenceNumberDeltaLen` switch used for block lengths when
writing: 1, 2, 4 or 6 bytes; any other length (8, possible in the IETF dialect)
has no case in the source switch and writes nothing. -/
def writeABL (v : VersionNumber) (deltaLen x : Nat) : List Nat :=
  if deltaLen = 1 then [x % 256]
  else if deltaLen = 2 then writeUintN v 2 x
  else if deltaLen = 4 then writeUintN v 4 x
  else if deltaLen = 6 then writeUintN v 6 x
  else []

/-- The `largestAckedLen` switch used when writing `LargestAcked`: 1, 2, 4, 6
or 8 bytes. -/
def writeLargestAcked (v : VersionNumber) (len x : Nat) : List Nat :=
  if len = 1 then [x % 256]
  else if len = 2 then writeUintN v 2 x
  else if len = 4 then writeUintN v 4 x
  else if len = 6 then writeUintN v 6 x
  else if len = 8 then writeUintN v 8 x
  else []

/-- The gap/length entries `Write` emits for one ACK range whose gap to its
predecessor is `gap` and whose own length is `length`: with
`num = gap/0xFF + 1` (one fewer when `gap` is a multiple of `0xFF`), a single
`(gap, length)` entry when `num == 1`, otherwise `num - 1` placeholder entries
`(0xFF, 0)` followed by one real entry `(1 + ((gap-1) mod 255), length)`. -/
def nackRangeEntries (gap length : Nat) : List (Nat × Nat) :=
  let num := nackEntryCount gap
  if num = 1 then [(gap % 256, length)]
  else
    (List.range num).map fun i =>
      if i = num - 1 then (1 + (gap - 1) % 255, length) else (255, 0)

/-- The per-range loop of `Write` over `f.AckRanges[1:]`: serializes each
range's gap/length entries, counts them in `numRangesWritten`, and breaks once
`numRangesWritten >= numRanges`.  Returns the emitted bytes and the final
count. -/
def writeRangesLoop (v : VersionNumber) (deltaLen numRanges : Nat) :
    AckRange → List AckRange → Nat → List Nat × Nat
  | _, [], written => ([], written)
  | prev, r :: rest, written =>
    let length := wadd (wsub r.Last r.First) 1
    let gap := wsub (wsub prev.First r.Last) 1
    let entries := nackRangeEntries gap length
    let bytes := entries.foldr (fun e acc => e.1 :: writeABL v deltaLen e.2 ++ acc) []
    let written := written + entries.length
    if written ≥ numRanges then (bytes, written)
    else
      let (tb, wf) := writeRangesLoop v deltaLen numRanges r rest written
      (bytes ++ tb, wf)

/-- The type byte composed by `Write`: the dialect base (`0x40` legacy,
`0xa0` IETF) xor-ed with the two length codes and the missing-ranges flag at
their dialect-specific positions. -/
def ackTypeByte (f : AckFrame) (v : VersionNumber) : Nat :=
  let largestAckedLen := GetPacketNumberLength f.LargestAcked
  let typeByte : Nat := if v.UsesIETFAckFrame then 0xa0 else 0x40
  let typeByte :=
    if largestAckedLen ≠ 1 then
      if v.UsesIETFAckFrame then
        if largestAckedLen = 2 then typeByte ^^^ (0x1 <<< 2)
        else if largestAckedLen = 4 then typeByte ^^^ (0x2 <<< 2)
        else if largestAckedLen = 8 then typeByte ^^^ (0x3 <<< 2)
        else typeByte
      else typeByte ^^^ ((largestAckedLen / 2) <<< 2)
    else typeByte
  let deltaLen := f.getMissingSequenceNumberDeltaLen v
  let typeByte :=
    if deltaLen ≠ 1 then
      if v.UsesIETFAckFrame then
        if deltaLen = 2 then typeByte ^^^ 0x1
        else if deltaLen = 4 then typeByte ^^^ 0x2
        else if deltaLen = 8 then typeByte ^^^ 0x3
        else typeByte
      else typeByte ^^^ (deltaLen / 2)
    else typeByte
  if f.HasMissingRanges then
    if v.UsesIETFAckFrame then typeByte ^^^ 0x10 else typeByte ^^^ 0x20
  else typeByte

/-- The fixed header `Write` emits before the first ack block length: the type
byte, the IETF-only `numRanges - 1` count, `LargestAcked`, the legacy-only
ufloat16 delay, and the legacy-only `numRanges - 1` count. -/
def ackHeaderBytes (f : AckFrame) (v : VersionNumber) : List Nat :=
  let numRanges := f.numWritableNackRanges
  [ackTypeByte f v]
    ++ (if v.UsesIETFAckFrame ∧ f.HasMissingRanges then [wsub numRanges 1 % 256]
        else [])
    ++ writeLargestAcked v (GetPacketNumberLength f.LargestAcked) f.LargestAcked
    ++ (if ¬v.UsesIETFAckFrame then writeUfloat16 v f.DelayTime else [])
    ++ (if ¬v.UsesIETFAckFrame ∧ f.HasMissingRanges then [wsub numRanges 1 % 256]
        else [])

/-- Body of `(*AckFrame).Write` after the range-count guard: the header, the
consistency checks, the first ack block length, the per-range entries and the
trailing zero timestamp count. -/
def AckFrame.writeBody (f : AckFrame) (v : VersionNumber) :
    Except AckWriteErr (List Nat) :=
  let deltaLen := f.getMissingSequenceNumberDeltaLen v
  let numRanges := f.numWritableNackRanges
  let header := ackHeaderBytes f v
  match f.AckRanges with
  | [] =>
    let firstAckBlockLength := wadd (wsub f.LargestAcked f.LowestAcked) 1
    if numRanges ≠ 0 then .error .inconsistentRangesWritten
    else .ok (header ++ writeABL v deltaLen firstAckBlockLength ++ [0])
  | r0 :: rest =>
    if f.LargestAcked ≠ r0.Last then .error .inconsistentAckLargestAcked
    else if f.LowestAcked ≠ (f.AckRanges.getLastD ⟨0, 0⟩).First then
      .error .inconsistentAckLowestAcked
    else
      let firstAckBlockLength := wadd (wsub f.LargestAcked r0.First) 1
      let (rangeBytes, written) := writeRangesLoop v deltaLen numRanges r0 rest 1
      if numRanges ≠ written then .error .inconsistentRangesWritten
      else .ok (header ++ writeABL v deltaLen firstAckBlockLength
                ++ rangeBytes ++ [0])

/-- Source `(*AckFrame).Write`.  The `time.Since(f.PacketReceivedTime)`
reassignment of `DelayTime` in the legacy branch reads the wall clock, which a
shallow embedding abstracts: the current `DelayTime` field is what gets
ufloat16-encoded.  The `panic` on more than `0xFF` writable ranges is embedded
as the error `tooManyAckRanges`. -/
def AckFrame.Write (f : AckFrame) (v : VersionNumber) :
    Except AckWriteErr (List Nat) :=
  if f.numWritableNackRanges > 0xFF then .error .tooManyAckRanges
  else f.writeBody v

/-! ## Incoming stream quadrant (`streams_map_incoming_generic.go`)

Stream handles are embedded by their IDs: the map `streams` stores, at key
`id`, the handle `newStream(id)`, which is determined by `id`, so the embedding
keeps the list of IDs present.  Errors are embedded as `Nat` codes.
`deletedGhost` is a ghost field recording every ID ever removed by
`DeleteStream`; no operation reads it. -/

/-- State of `incomingItemsMap` (minus the mutex/condvar, which the sequential
embedding absorbs; the condition-variable behaviour of `CloseWithError` is
modelled separately below). -/
structure IncomingItemsMap where
  streams : List Nat
  nextStream : Nat
  highestStream : Nat
  closeErr : Option Nat
  deletedGhost : List Nat
deriving DecidableEq, Repr

/-- Source `newIncomingItemsMap(nextStream, newStream)`. -/
def newIncomingItemsMap (first : Nat) : IncomingItemsMap :=
  { streams := [], nextStream := first, highestStream := 0, closeErr := none,
    deletedGhost := [] }

/-- Result of one `AcceptStream` call: the stream at `nextStream`, the latched
close error, or a suspension on the condition variable (`cond.Wait`). -/
inductive AcceptResult
  | stream (id : Nat)
  | err (e : Nat)
  | wouldBlock
deriving DecidableEq, Repr

/-- Source `(*incomingItemsMap).AcceptStream`: the loop first checks
`closeErr`, then looks up `streams[nextStream]`; on a hit it advances
`nextStream` by 4 and returns the handle, otherwise it waits. -/
def IncomingItemsMap.AcceptStream (m : IncomingItemsMap) :
    AcceptResult × IncomingItemsMap :=
  match m.closeErr with
  | some e => (.err e, m)
  | none =>
    if m.streams.contains m.nextStream then
      (.stream m.nextStream, { m with nextStream := m.nextStream + 4 })
    else (.wouldBlock, m)

/-- The loop `for newID := start; newID <= id; newID += 4` of
`GetOrOpenStream`, with an explicit fuel bound (the loop body runs at most
`id + 1 - start` times since the counter strictly increases). -/
def openRangeAux : Nat → Nat → Nat → List Nat
  | 0, _, _ => []
  | fuel + 1, start, id =>
    if start ≤ id then start :: openRangeAux fuel (start + 4) id else []

/-- The IDs created by the loop `for newID := start; newID <= id; newID += 4`
of `GetOrOpenStream`. -/
def openRange (start id : Nat) : List Nat :=
  openRangeAux (id + 1 - start) start id

/-- Source `(*incomingItemsMap).GetOrOpenStream`: a fast path for
`id <= highestStream` returning the map entry (`none` embeds the `nil` handle
of an already-deleted stream), otherwise creation of every ID from `start` to
`id` in steps of 4 and an update of `highestStream`.  `closeErr` is never
consulted. -/
def IncomingItemsMap.GetOrOpenStream (m : IncomingItemsMap) (id : Nat) :
    Option Nat × IncomingItemsMap :=
  if id ≤ m.highestStream then
    ((if m.streams.contains id then some id else none), m)
  else
    let start := if m.highestStream = 0 then m.nextStream
                 else m.highestStream + 4
    let streams := m.streams ++ openRange start id
    ((if streams.contains id then some id else none),
     { m with streams := streams, highestStream := id })

/-- Source `(*incomingItemsMap).DeleteStream`: `false` embeds the
`"Tried to delete unknown stream"` error for an absent ID.  The ghost field
records the deletion. -/
def IncomingItemsMap.DeleteStream (m : IncomingItemsMap) (id : Nat) :
    Bool × IncomingItemsMap :=
  if m.streams.contains id then
    (true, { m with streams := m.streams.erase id,
                    deletedGhost := id :: m.deletedGhost })
  else (false, m)

/-- Source `(*incomingItemsMap).CloseWithError`: latches `closeErr` (and
signals the condition variable once, which the sequential embedding elides). -/
def IncomingItemsMap.CloseWithError (m : IncomingItemsMap) (e : Nat) :
    IncomingItemsMap :=
  { m with closeErr := some e }

/-- Operations on one incoming quadrant, for trace-based statements. -/
inductive IOp
  | accept
  | getOrOpen (id : Nat)
  | delete (id : Nat)
  | close (e : Nat)
deriving DecidableEq, Repr

/-- State effect of one quadrant operation. -/
def IOp.apply (op : IOp) (m : IncomingItemsMap) : IncomingItemsMap :=
  match op with
  | .accept => m.AcceptStream.2
  | .getOrOpen id => (m.GetOrOpenStream id).2
  | .delete id => (m.DeleteStream id).2
  | .close e => m.CloseWithError e

/-- Run a list of quadrant operations. -/
def runIOps (m : IncomingItemsMap) (ops : List IOp) : IncomingItemsMap :=
  ops.foldl (fun s op => op.apply s) m

/-- Run a list of quadrant operations, collecting the IDs of every successful
`AcceptStream` call in order. -/
def runAccepts (m : IncomingItemsMap) : List IOp → IncomingItemsMap × List Nat
  | [] => (m, [])
  | .accept :: rest =>
    let (r, m') := m.AcceptStream
    let (mf, ids) := runAccepts m' rest
    match r with
    | .stream id => (mf, id :: ids)
    | _ => (mf, ids)
  | op :: rest => runAccepts (op.apply m) rest

/-! ## Outgoing stream quadrant

`streams_map_outgoing_generic.go` is not among the provided sources (only the
manager in `streams_map.go` calls it), so the quadrant is modelled from the
spec. -/

/-- Modelled from the spec: state of the outgoing quadrant
(spec section 4.D): a `nextStream` cursor, a map from emitted ID to handle, and
the `closeErr` latch. -/
structure OutgoingItemsMap where
  streams : List Nat
  nextStream : Nat
  closeErr : Option Nat
deriving DecidableEq, Repr

/-- Modelled from the spec: `OpenStream()` of the outgoing quadrant
(spec section 4.D): under lock, if `closeErr` is set return it; otherwise
allocate the handle for `nextStream`, insert it, advance `nextStream` by 4 and
return the handle. -/
def OutgoingItemsMap.OpenStream (m : OutgoingItemsMap) :
    Except Nat Nat × OutgoingItemsMap :=
  match m.closeErr with
  | some e => (.error e, m)
  | none =>
    (.ok m.nextStream,
     { m with streams := m.nextStream :: m.streams,
              nextStream := m.nextStream + 4 })

/-- Modelled from the spec: `GetStream(id)` of the outgoing quadrant
(spec section 4.D): the handle if present, `none` for a deleted ID below
`nextStream`, and the `InvalidStreamID` failure (embedded as `Except.error ()`)
when the peer references an outgoing ID not yet opened. -/
def OutgoingItemsMap.GetStream (m : OutgoingItemsMap) (id : Nat) :
    Except Unit (Option Nat) :=
  if id ≥ m.nextStream then .error ()
  else .ok (if m.streams.contains id then some id else none)

/-- Modelled from the spec: `DeleteStream(id)` of the outgoing quadrant
(spec section 4.D): remove, error (`false`) if absent. -/
def OutgoingItemsMap.DeleteStream (m : OutgoingItemsMap) (id : Nat) :
    Bool × OutgoingItemsMap :=
  if m.streams.contains id then (true, { m with streams := m.streams.erase id })
  else (false, m)

/-- Modelled from the spec: `CloseWithError(err)` of the outgoing quadrant
(spec section 4.D): latch `closeErr`. -/
def OutgoingItemsMap.CloseWithError (m : OutgoingItemsMap) (e : Nat) :
    OutgoingItemsMap :=
  { m with closeErr := some e }

/-! ## Streams manager (`streams_map.go`) -/

/-- Source `protocol.Perspective`. -/
inductive Perspective
  | server
  | client
deriving DecidableEq, Repr

/-- Source `streamType`. -/
inductive StreamType
  | outgoingBidi
  | incomingBidi
  | outgoingUni
  | incomingUni
deriving DecidableEq, Repr

/-- Source `streamsMap` state: the four quadrants plus the perspective used by
`getStreamType`. -/
structure StreamsMap where
  perspective : Perspective
  outgoingBidiStreams : OutgoingItemsMap
  outgoingUniStreams : OutgoingItemsMap
  incomingBidiStreams : IncomingItemsMap
  incomingUniStreams : IncomingItemsMap
deriving DecidableEq, Repr

/-- Source `(*streamsMap).getStreamType`: residue-class dispatch by
perspective. -/
def StreamsMap.getStreamType (m : StreamsMap) (id : Nat) : StreamType :=
  match m.perspective with
  | .server =>
    match id % 4 with
    | 0 => .incomingBidi
    | 1 => .outgoingBidi
    | 2 => .incomingUni
    | _ => .outgoingUni
  | .client =>
    match id % 4 with
    | 0 => .outgoingBidi
    | 1 => .incomingBidi
    | 2 => .outgoingUni
    | _ => .incomingUni

/-- Source `(*streamsMap).OpenStream`: delegate to the outgoing bidi
quadrant. -/
def StreamsMap.OpenStream (m : StreamsMap) : Except Nat Nat × StreamsMap :=
  let (r, q) := m.outgoingBidiStreams.OpenStream
  (r, { m with outgoingBidiStreams := q })

/-- Source `(*streamsMap).OpenUniStream`: delegate to the outgoing uni
quadrant. -/
def StreamsMap.OpenUniStream (m : StreamsMap) : Except Nat Nat × StreamsMap :=
  let (r, q) := m.outgoingUniStreams.OpenStream
  (r, { m with outgoingUniStreams := q })

/-- Source `(*streamsMap).AcceptStream`: delegate to the incoming bidi
quadrant. -/
def StreamsMap.AcceptStream (m : StreamsMap) : AcceptResult × StreamsMap :=
  let (r, q) := m.incomingBidiStreams.AcceptStream
  (r, { m with incomingBidiStreams := q })

/-- Source `(*streamsMap).AcceptUniStream`: delegate to the incoming uni
quadrant. -/
def StreamsMap.AcceptUniStream (m : StreamsMap) : AcceptResult × StreamsMap :=
  let (r, q) := m.incomingUniStreams.AcceptStream
  (r, { m with incomingUniStreams := q })

/-- Source `(*streamsMap).DeleteStream`: residue dispatch to the right
quadrant. -/
def StreamsMap.DeleteStream (m : StreamsMap) (id : Nat) : StreamsMap :=
  match m.getStreamType id with
  | .incomingBidi =>
    { m with incomingBidiStreams := (m.incomingBidiStreams.DeleteStream id).2 }
  | .outgoingBidi =>
    { m with outgoingBidiStreams := (m.outgoingBidiStreams.DeleteStream id).2 }
  | .incomingUni =>
    { m with incomingUniStreams := (m.incomingUniStreams.DeleteStream id).2 }
  | .outgoingUni =>
    { m with outgoingUniStreams := (m.outgoingUniStreams.DeleteStream id).2 }

/-- Source `(*streamsMap).GetOrOpenReceiveStream` (state effect; the
`outgoingUni` case fails and the `outgoingBidi` case is the read-only
`GetStream`, so only the incoming cases mutate). -/
def StreamsMap.GetOrOpenReceiveStream (m : StreamsMap) (id : Nat) : StreamsMap :=
  match m.getStreamType id with
  | .outgoingBidi => m
  | .incomingBidi =>
    { m with incomingBidiStreams := (m.incomingBidiStreams.GetOrOpenStream id).2 }
  | .incomingUni =>
    { m with incomingUniStreams := (m.incomingUniStreams.GetOrOpenStream id).2 }
  | .outgoingUni => m

/-- Source `(*streamsMap).GetOrOpenSendStream` (state effect, as above with the
roles of the unidirectional quadrants swapped). -/
def StreamsMap.GetOrOpenSendStream (m : StreamsMap) (id : Nat) : StreamsMap :=
  match m.getStreamType id with
  | .outgoingBidi => m
  | .incomingBidi =>
    { m with incomingBidiStreams := (m.incomingBidiStreams.GetOrOpenStream id).2 }
  | .outgoingUni => m
  | .incomingUni => m

/-- Source `(*streamsMap).CloseWithError`: close all four quadrants. -/
def StreamsMap.CloseWithError (m : StreamsMap) (e : Nat) : StreamsMap :=
  { m with
    outgoingBidiStreams := m.outgoingBidiStreams.CloseWithError e
    outgoingUniStreams := m.outgoingUniStreams.CloseWithError e
    incomingBidiStreams := m.incomingBidiStreams.CloseWithError e
    incomingUniStreams := m.incomingUniStreams.CloseWithError e }

/-- Manager-level operations, for trace-based statements. -/
inductive MOp
  | openStream
  | openUniStream
  | acceptStream
  | acceptUniStream
  | getOrOpenReceive (id : Nat)
  | getOrOpenSend (id : Nat)
  | delete (id : Nat)
  | close (e : Nat)
deriving DecidableEq, Repr

/-- State effect of one manager operation. -/
def MOp.apply (op : MOp) (m : StreamsMap) : StreamsMap :=
  match op with
  | .openStream => m.OpenStream.2
  | .openUniStream => m.OpenUniStream.2
  | .acceptStream => m.AcceptStream.2
  | .acceptUniStream => m.AcceptUniStream.2
  | .getOrOpenReceive id => m.GetOrOpenReceiveStream id
  | .getOrOpenSend id => m.GetOrOpenSendStream id
  | .delete id => m.DeleteStream id
  | .close e => m.CloseWithError e

/-- Run a list of manager operations. -/
def runMOps (m : StreamsMap) (ops : List MOp) : StreamsMap :=
  ops.foldl (fun s op => op.apply s) m

/-- Whether a manager operation is `CloseWithError`. -/
def MOp.isClose : MOp → Bool
  | .close _ => true
  | _ => false

/-- Whether an operation list contains no `CloseWithError`. -/
def noClose (ops : List MOp) : Bool :=
  ops.all fun op => !op.isClose

/-- Source `newStreamsMap`: the initial quadrant IDs per perspective (server:
outgoing bidi 1, incoming bidi 4, outgoing uni 3, incoming uni 2; mirrored for
the client; ID 0 is the crypto stream, handled separately). -/
def newStreamsMap (p : Perspective) : StreamsMap :=
  match p with
  | .server =>
    { perspective := .server
      outgoingBidiStreams := ⟨[], 1, none⟩
      outgoingUniStreams := ⟨[], 3, none⟩
      incomingBidiStreams := newIncomingItemsMap 4
      incomingUniStreams := newIncomingItemsMap 2 }
  | .client =>
    { perspective := .client
      outgoingBidiStreams := ⟨[], 4, none⟩
      outgoingUniStreams := ⟨[], 2, none⟩
      incomingBidiStreams := newIncomingItemsMap 1
      incomingUniStreams := newIncomingItemsMap 3 }

/-! ## Condition-variable model for `AcceptStream` / `CloseWithError`

Go's `sync.Cond.Wait` returns only when awoken by `Signal` or `Broadcast`
(there are no spurious wakeups), and `Signal` wakes at most one waiting
goroutine.  `(*incomingItemsMap).CloseWithError` latches `closeErr` and then
calls `m.cond.Signal()` exactly once; the `closeErr` return path of
`AcceptStream` performs no signal.  The model below has two goroutines running
`AcceptStream` on one quadrant; a step of a running goroutine executes one pass
of the accept loop body under the lock. -/

/-- Status of one goroutine executing `AcceptStream`. -/
inductive TStat
  | running
  | waiting
  | done (r : Except Nat Nat)
deriving DecidableEq, Repr

/-- Outcome of one pass of the accept loop body: a result ends the call, a
`wouldBlock` suspends the goroutine in `cond.Wait`. -/
def threadAfter : AcceptResult → TStat
  | .err e => .done (.error e)
  | .stream id => .done (.ok id)
  | .wouldBlock => .waiting

/-- A quadrant together with two goroutines calling `AcceptStream` on it. -/
structure CondSys where
  q : IncomingItemsMap
  a : TStat
  b : TStat
deriving DecidableEq, Repr

/-- Source `(*incomingItemsMap).CloseWithError` with its condition-variable
effect: latch `closeErr`, then `Signal`, which moves at most one waiting
goroutine to running (`wakeB` is the scheduler's choice of which waiter the
runtime picks when both wait). -/
def closeWithErrorSys (e : Nat) (wakeB : Bool) (s : CondSys) : CondSys :=
  let q := s.q.CloseWithError e
  if wakeB then
    if s.b = .waiting then ⟨q, s.a, .running⟩
    else if s.a = .waiting then ⟨q, .running, s.b⟩
    else ⟨q, s.a, s.b⟩
  else
    if s.a = .waiting then ⟨q, .running, s.b⟩
    else if s.b = .waiting then ⟨q, s.a, .running⟩
    else ⟨q, s.a, s.b⟩

/-- Interleaving steps after the close: a running goroutine executes one pass
of the accept loop body.  A waiting goroutine has no step of its own — it can
only be resumed by a `Signal` or `Broadcast`, and after `CloseWithError`
returns, no further operation of scenario S7 signals the condition variable. -/
inductive CondStep : CondSys → CondSys → Prop
  | stepA (s : CondSys) (h : s.a = .running) :
      CondStep s ⟨s.q.AcceptStream.2, threadAfter s.q.AcceptStream.1, s.b⟩
  | stepB (s : CondSys) (h : s.b = .running) :
      CondStep s ⟨s.q.AcceptStream.2, s.a, threadAfter s.q.AcceptStream.1⟩

/-- Reachability by interleaving steps. -/
def CondReach : CondSys → CondSys → Prop :=
  Relation.ReflTransGen CondStep

/-! ## Theorems -/

/-- Whether a `Write` result is the embedded
`panic("AckFrame: Too many ACK ranges")`. -/
def writePanics : Except AckWriteErr (List Nat) → Bool
  | .error .tooManyAckRanges => true
  | _ => false

/-- The accumulating loop of `numWritableNackRanges` never pushes the running
count past 254, because it stops accumulating once the count would reach
`0xFF`. -/
theorem numWritableNackRangesAux_le :
    ∀ (rest : List AckRange) (prev : AckRange) (acc : Nat),
      acc ≤ 254 → numWritableNackRangesAux prev rest acc ≤ 254 := by
  intro rest
  induction rest with
  | nil => intro prev acc h; simpa [numWritableNackRangesAux] using h
  | cons r rs ih =>
    intro prev acc h
    simp only [numWritableNackRangesAux]
    split
    next hlt => exact ih r _ (by omega)
    next => exact h

/-- The body of `Write` (everything after the range-count guard) only ever
fails with one of the consistency errors, never with the panic. -/
theorem writeBody_no_panic (f : AckFrame) (v : VersionNumber) :
    writePanics (f.writeBody v) = false := by
  unfold AckFrame.writeBody
  split
  · dsimp only
    split <;> rfl
  · dsimp only
    split
    · rfl
    · split
      · rfl
      · split <;> rfl

/-- C9: for every AckFrame, `numWritableNackRanges` returns at most 255
(`0xFF`), because the range expansion stops accumulating once the running count
would reach `0xFF`; consequently the panic guard in `Write` that fires when
`numWritableNackRanges` exceeds `0xFF` is unreachable for every input frame and
version. -/
theorem numWritableNackRanges_le_255 :
    (∀ f : AckFrame, f.numWritableNackRanges ≤ 0xFF) ∧
    ∀ (f : AckFrame) (v : VersionNumber), writePanics (f.Write v) = false := by
  have h1 : ∀ f : AckFrame, f.numWritableNackRanges ≤ 0xFF := by
    intro f
    unfold AckFrame.numWritableNackRanges
    split
    · omega
    · rename_i r0 rest heq
      have := numWritableNackRangesAux_le rest r0 0 (by omega)
      omega
  refine ⟨h1, ?_⟩
  intro f v
  have hle := h1 f
  unfold AckFrame.Write
  rw [if_neg (by omega)]
  exact writeBody_no_panic f v

/-- C2: the legacy byte sequence `{0x40, 0x00, 0x00, 0x00, 0x01, 0x00}` —
exactly what `Write` itself emits for the frame acking only packet 0 — is
rejected by `ParseAckFrame` with `ErrInvalidAckRanges`, because the first ack
block length 1 exceeds `LargestAcked = 0`; the claim (and spec scenario S4)
expects a successful parse with `LargestAcked = 0`, `LowestAcked = 0` and no
missing ranges. -/
theorem parse_legacy_ack_packet0_rejected :
    AckFrame.Write ⟨0, 0, [], 0⟩ .legacy = .ok [0x40, 0x00, 0x00, 0x00, 0x01, 0x00]
    ∧ ParseAckFrame .legacy [0x40, 0x00, 0x00, 0x00, 0x01, 0x00] =
        .error .invalidAckRanges := by
  constructor <;> decide

/-- C1: the IETF write/parse round trip fails on the S5 frame (ranges
`[{5,7},{1,3}]`, so `LargestAcked = 7`, `LowestAcked = 1`), which satisfies the
ordered-range validation invariant: `Write` emits no `numTimestamps` byte and
no delay field in the IETF dialect, while `ParseAckFrame` reads both, so the
parse of the written bytes misaligns and fails with `ErrInvalidFirstAckRange`
instead of returning the frame. -/
theorem ietf_roundtrip_fails_on_s5 :
    AckFrame.validateAckRanges ⟨7, 1, [⟨5, 7⟩, ⟨1, 3⟩], 0⟩ = true
    ∧ AckFrame.Write ⟨7, 1, [⟨5, 7⟩, ⟨1, 3⟩], 0⟩ .ietf =
        .ok [0xb0, 0x01, 0x07, 0x03, 0x01, 0x03, 0x00]
    ∧ ParseAckFrame .ietf [0xb0, 0x01, 0x07, 0x03, 0x01, 0x03, 0x00] =
        .error .invalidFirstAckRange := by
  refine ⟨by decide, by decide, by decide⟩

/-- Mapping the range `[0, n)` through a function that distinguishes the last
index yields the constant list followed by the distinguished value. -/
theorem range_map_last {α : Type} (n : Nat) (hn : 1 ≤ n) (a b : α) :
    (List.range n).map (fun i => if i = n - 1 then a else b) =
      List.replicate (n - 1) b ++ [a] := by
  obtain ⟨m, rfl⟩ : ∃ m, n = m + 1 := ⟨n - 1, by omega⟩
  simp only [Nat.add_sub_cancel]
  rw [List.range_succ, List.map_append]
  congr 1
  · refine List.eq_replicate_iff.mpr ⟨by simp, ?_⟩
    intro x hx
    obtain ⟨i, hi, rfl⟩ := List.mem_map.mp hx
    have hlt : i < m := List.mem_range.mp hi
    simp [Nat.ne_of_lt hlt]
  · simp

/-- C4: for an inter-range gap exceeding 255, `Write` emits a chain of
`(gap-1)/255` placeholder entries `(0xFF, 0)` terminated by one real entry
`(1 + ((gap-1) mod 255), length)`; in particular for the S6 frame with ranges
`[{300,400},{1,2}]` (gap 297) the second range produces exactly the entries
`(0xFF, 0)` and `(42, 2)`, and parsing the written frame recovers both original
ranges. -/
theorem gap_splitting_chain :
    (∀ gap len : Nat, 255 < gap →
        nackRangeEntries gap len =
          List.replicate ((gap - 1) / 255) (255, 0) ++ [(1 + (gap - 1) % 255, len)])
    ∧ nackRangeEntries 297 2 = [(255, 0), (42, 2)]
    ∧ AckFrame.Write ⟨400, 1, [⟨300, 400⟩, ⟨1, 2⟩], 0⟩ .legacy =
        .ok [0x64, 0x01, 0x90, 0x00, 0x00, 0x02, 0x65, 0xFF, 0x00, 0x2A, 0x02, 0x00]
    ∧ ParseAckFrame .legacy
        [0x64, 0x01, 0x90, 0x00, 0x00, 0x02, 0x65, 0xFF, 0x00, 0x2A, 0x02, 0x00] =
        .ok (⟨400, 1, [⟨300, 400⟩, ⟨1, 2⟩], 0⟩, []) := by
  refine ⟨?_, by decide, by decide, by decide⟩
  intro gap len hgap
  have hnum : nackEntryCount gap = (gap - 1) / 255 + 1 := by
    unfold nackEntryCount
    split
    · omega
    · omega
  unfold nackRangeEntries
  rw [hnum]
  rw [if_neg (by omega)]
  have := range_map_last ((gap - 1) / 255 + 1) (by omega)
    ((1 + (gap - 1) % 255, len)) ((255, 0) : Nat × Nat)
  simpa using this

/-- C4 witness: the chain-shape part of `gap_splitting_chain` applied at the
concrete S6 gap 297 and length 2. -/
theorem gap_splitting_chain_witness :
    nackRangeEntries 297 2 =
      List.replicate ((297 - 1) / 255) ((255 : Nat), (0 : Nat))
        ++ [(1 + (297 - 1) % 255, 2)] :=
  gap_splitting_chain.1 297 2 (by decide)

/-- C3: for every input byte stream and version, once the header phase has
succeeded, `ParseAckFrame` fails with `ErrInvalidAckRanges` when the has-missing
flag is set and the `numAckBlocks` byte read as 0; otherwise, once the first ack
block length has been read, it fails with `ErrInvalidFirstAckRange` when
`LargestAcked > 0` and the length is less than 1, and with
`ErrInvalidAckRanges` when the length exceeds `LargestAcked`. -/
theorem parse_error_checks (v : VersionNumber) (bytes : List Nat) (h : AckHeader)
    (hh : parseAckHeader v bytes = .ok h) :
    (h.hasMissing = true → h.numAckBlocks = 0 →
        ParseAckFrame v bytes = .error .invalidAckRanges)
    ∧ ∀ ackBlockLength bs,
        (h.hasMissing = true → h.numAckBlocks ≠ 0) →
        readUintN v h.deltaLen h.rest = .ok (ackBlockLength, bs) →
        ((0 < h.largestAcked → ackBlockLength < 1 →
            ParseAckFrame v bytes = .error .invalidFirstAckRange)
         ∧ (h.largestAcked < ackBlockLength →
            ParseAckFrame v bytes = .error .invalidAckRanges)) := by
  have key : ParseAckFrame v bytes = parseAckRest v h := by
    unfold ParseAckFrame
    rw [hh]
  rw [key]
  constructor
  · intro hm hn
    unfold parseAckRest
    rw [if_pos ⟨hm, hn⟩]
  · intro abl bs himp hread
    have hcond : ¬(h.hasMissing ∧ h.numAckBlocks = 0) := by
      rintro ⟨hm, hn⟩
      exact himp hm hn
    unfold parseAckRest
    rw [if_neg hcond, hread]
    dsimp only
    constructor
    · intro hl habl
      rw [if_pos ⟨hl, habl⟩]
    · intro hlt
      rw [if_neg (by omega), if_pos hlt]

/-- C3 witness: `parse_error_checks` applied to the legacy stream
`[0x60, 0x05, 0x00, 0x00, 0x00]` (has-missing set, `numAckBlocks` byte 0), to
the legacy stream `[0x40, 0x05, 0x00, 0x00, 0x00]` (`LargestAcked = 5`, first
ack block length 0) and to the legacy stream `[0x40, 0x00, 0x00, 0x00, 0x01]`
(first ack block length 1 exceeding `LargestAcked = 0`). -/
theorem parse_error_checks_witness :
    ParseAckFrame .legacy [0x60, 0x05, 0x00, 0x00, 0x00] = .error .invalidAckRanges
    ∧ ParseAckFrame .legacy [0x40, 0x05, 0x00, 0x00, 0x00] =
        .error .invalidFirstAckRange
    ∧ ParseAckFrame .legacy [0x40, 0x00, 0x00, 0x00, 0x01] =
        .error .invalidAckRanges := by
  refine ⟨?_, ?_, ?_⟩
  · exact (parse_error_checks .legacy [0x60, 0x05, 0x00, 0x00, 0x00]
      ⟨true, 1, 1, 0, 0, 5, 0, []⟩ (by decide)).1 rfl rfl
  · exact (((parse_error_checks .legacy [0x40, 0x05, 0x00, 0x00, 0x00]
      ⟨false, 1, 1, 0, 0, 5, 0, [0x00]⟩ (by decide)).2 0 []
      (by intro hf; exact absurd hf (by decide)) (by decide)).1
      (by decide) (by decide))
  · exact (((parse_error_checks .legacy [0x40, 0x00, 0x00, 0x00, 0x01]
      ⟨false, 1, 1, 0, 0, 0, 0, [0x01]⟩ (by decide)).2 1 []
      (by intro hf; exact absurd hf (by decide)) (by decide)).2
      (by decide))

/-- Every quadrant operation other than `AcceptStream` leaves the `nextStream`
cursor unchanged. -/
theorem IOp.apply_nextStream (op : IOp) (m : IncomingItemsMap)
    (h : op ≠ .accept) : (op.apply m).nextStream = m.nextStream := by
  cases op with
  | accept => exact absurd rfl h
  | getOrOpen id =>
    unfold IOp.apply IncomingItemsMap.GetOrOpenStream
    dsimp only
    split <;> rfl
  | delete id =>
    unfold IOp.apply IncomingItemsMap.DeleteStream
    dsimp only
    split <;> rfl
  | close e => rfl

/-- A successful `AcceptStream` returns exactly the handle at the `nextStream`
cursor and advances the cursor by 4. -/
theorem acceptStream_success (m m' : IncomingItemsMap) (id : Nat)
    (h : m.AcceptStream = (.stream id, m')) :
    id = m.nextStream ∧ m'.nextStream = m.nextStream + 4 := by
  unfold IncomingItemsMap.AcceptStream at h
  cases hce : m.closeErr with
  | some e => rw [hce] at h; simp at h
  | none =>
    rw [hce] at h
    by_cases hc : m.nextStream ∈ m.streams
    · rw [if_pos (List.elem_iff.mpr hc)] at h
      simp only [Prod.mk.injEq, AcceptResult.stream.injEq] at h
      obtain ⟨h1, h2⟩ := h
      subst h1
      subst h2
      exact ⟨rfl, rfl⟩
    · simp [hc] at h

/-- The successful accept IDs collected along any operation trace form a chain
increasing by exactly 4, and a nonempty collection starts at the state's
`nextStream` cursor. -/
theorem runAccepts_chain :
    ∀ (ops : List IOp) (m : IncomingItemsMap),
      List.Chain' (fun a b => b = a + 4) (runAccepts m ops).2
      ∧ ∀ x l, (runAccepts m ops).2 = x :: l → x = m.nextStream := by
  intro ops
  induction ops with
  | nil =>
    intro m
    refine ⟨by simp [runAccepts], ?_⟩
    intro x l hxl
    simp [runAccepts] at hxl
  | cons op rest ih =>
    intro m
    cases op with
    | accept =>
      cases hce : m.closeErr with
      | some e =>
        have hacc : m.AcceptStream = (.err e, m) := by
          unfold IncomingItemsMap.AcceptStream
          rw [hce]
        constructor
        · simpa [runAccepts, hacc] using (ih m).1
        · intro x l hxl
          exact (ih m).2 x l (by simpa [runAccepts, hacc] using hxl)
      | none =>
        by_cases hc : m.nextStream ∈ m.streams
        · have hacc : m.AcceptStream =
              (.stream m.nextStream, { m with nextStream := m.nextStream + 4 }) := by
            unfold IncomingItemsMap.AcceptStream
            rw [hce]
            simp [hc]
          constructor
          · rcases hids :
              (runAccepts { m with nextStream := m.nextStream + 4 } rest).2 with
              _ | ⟨y, l⟩
            · simp [runAccepts, hacc, hids]
            · have hy := (ih _).2 y l hids
              have hch := (ih { m with nextStream := m.nextStream + 4 }).1
              rw [hids] at hch
              simp only [runAccepts, hacc, hids]
              exact List.chain'_cons.mpr ⟨by simpa using hy, hch⟩
          · intro x l hxl
            simp only [runAccepts, hacc] at hxl
            exact (List.cons.injEq .. ▸ hxl).1.symm
        · have hacc : m.AcceptStream = (.wouldBlock, m) := by
            unfold IncomingItemsMap.AcceptStream
            rw [hce]
            simp [hc]
          constructor
          · simpa [runAccepts, hacc] using (ih m).1
          · intro x l hxl
            exact (ih m).2 x l (by simpa [runAccepts, hacc] using hxl)
    | getOrOpen id =>
      refine ⟨by simpa [runAccepts] using (ih _).1, ?_⟩
      intro x l hxl
      have hx := (ih _).2 x l (by simpa [runAccepts] using hxl)
      rw [hx, IOp.apply_nextStream _ _ (by simp)]
    | delete id =>
      refine ⟨by simpa [runAccepts] using (ih _).1, ?_⟩
      intro x l hxl
      have hx := (ih _).2 x l (by simpa [runAccepts] using hxl)
      rw [hx, IOp.apply_nextStream _ _ (by simp)]
    | close e =>
      refine ⟨by simpa [runAccepts] using (ih _).1, ?_⟩
      intro x l hxl
      have hx := (ih _).2 x l (by simpa [runAccepts] using hxl)
      rw [hx, IOp.apply_nextStream _ _ (by simp)]

/-- `OpenStream` never changes an outgoing quadrant's `closeErr` latch. -/
theorem OutgoingItemsMap.open_closeErr (m : OutgoingItemsMap) :
    m.OpenStream.2.closeErr = m.closeErr := by
  unfold OutgoingItemsMap.OpenStream
  cases hce : m.closeErr
  · rfl
  · exact hce

/-- `DeleteStream` never changes an outgoing quadrant's `closeErr` latch. -/
theorem OutgoingItemsMap.delete_keeps_closeErr (m : OutgoingItemsMap) (id : Nat) :
    (m.DeleteStream id).2.closeErr = m.closeErr := by
  unfold OutgoingItemsMap.DeleteStream
  split <;> rfl

/-- `AcceptStream` never changes an incoming quadrant's `closeErr` latch. -/
theorem IncomingItemsMap.accept_closeErr (m : IncomingItemsMap) :
    m.AcceptStream.2.closeErr = m.closeErr := by
  unfold IncomingItemsMap.AcceptStream
  cases hce : m.closeErr
  · dsimp only
    split
    · rfl
    · exact hce
  · exact hce

/-- `GetOrOpenStream` never changes an incoming quadrant's `closeErr` latch. -/
theorem IncomingItemsMap.getOrOpen_closeErr (m : IncomingItemsMap) (id : Nat) :
    (m.GetOrOpenStream id).2.closeErr = m.closeErr := by
  unfold IncomingItemsMap.GetOrOpenStream
  dsimp only
  split <;> rfl

/-- `DeleteStream` never changes an incoming quadrant's `closeErr` latch. -/
theorem IncomingItemsMap.delete_preserves_closeErr (m : IncomingItemsMap) (id : Nat) :
    (m.DeleteStream id).2.closeErr = m.closeErr := by
  unfold IncomingItemsMap.DeleteStream
  split <;> rfl

/-- All four quadrants have their `closeErr` latched to `e`. -/
def AllClosed (e : Nat) (m : StreamsMap) : Prop :=
  m.outgoingBidiStreams.closeErr = some e
  ∧ m.outgoingUniStreams.closeErr = some e
  ∧ m.incomingBidiStreams.closeErr = some e
  ∧ m.incomingUniStreams.closeErr = some e

/-- Every manager operation other than `CloseWithError` preserves the four
`closeErr` latches. -/
theorem MOp.apply_allClosed (e : Nat) (op : MOp) (m : StreamsMap)
    (hop : op.isClose = false) (h : AllClosed e m) : AllClosed e (op.apply m) := by
  obtain ⟨h1, h2, h3, h4⟩ := h
  cases op with
  | openStream =>
    exact ⟨by rw [show (MOp.openStream.apply m).outgoingBidiStreams =
        m.outgoingBidiStreams.OpenStream.2 from rfl,
        OutgoingItemsMap.open_closeErr]; exact h1, h2, h3, h4⟩
  | openUniStream =>
    exact ⟨h1, by rw [show (MOp.openUniStream.apply m).outgoingUniStreams =
        m.outgoingUniStreams.OpenStream.2 from rfl,
        OutgoingItemsMap.open_closeErr]; exact h2, h3, h4⟩
  | acceptStream =>
    exact ⟨h1, h2, by rw [show (MOp.acceptStream.apply m).incomingBidiStreams =
        m.incomingBidiStreams.AcceptStream.2 from rfl,
        IncomingItemsMap.accept_closeErr]; exact h3, h4⟩
  | acceptUniStream =>
    exact ⟨h1, h2, h3, by
      rw [show (MOp.acceptUniStream.apply m).incomingUniStreams =
        m.incomingUniStreams.AcceptStream.2 from rfl,
        IncomingItemsMap.accept_closeErr]; exact h4⟩
  | getOrOpenReceive id =>
    show AllClosed e (m.GetOrOpenReceiveStream id)
    unfold StreamsMap.GetOrOpenReceiveStream
    cases m.getStreamType id with
    | outgoingBidi => exact ⟨h1, h2, h3, h4⟩
    | incomingBidi =>
      exact ⟨h1, h2, by rw [show ({ m with incomingBidiStreams :=
        (m.incomingBidiStreams.GetOrOpenStream id).2 } :
          StreamsMap).incomingBidiStreams =
        (m.incomingBidiStreams.GetOrOpenStream id).2 from rfl,
        IncomingItemsMap.getOrOpen_closeErr]; exact h3, h4⟩
    | outgoingUni => exact ⟨h1, h2, h3, h4⟩
    | incomingUni =>
      exact ⟨h1, h2, h3, by rw [show ({ m with incomingUniStreams :=
        (m.incomingUniStreams.GetOrOpenStream id).2 } :
          StreamsMap).incomingUniStreams =
        (m.incomingUniStreams.GetOrOpenStream id).2 from rfl,
        IncomingItemsMap.getOrOpen_closeErr]; exact h4⟩
  | getOrOpenSend id =>
    show AllClosed e (m.GetOrOpenSendStream id)
    unfold StreamsMap.GetOrOpenSendStream
    cases m.getStreamType id with
    | outgoingBidi => exact ⟨h1, h2, h3, h4⟩
    | incomingBidi =>
      exact ⟨h1, h2, by rw [show ({ m with incomingBidiStreams :=
        (m.incomingBidiStreams.GetOrOpenStream id).2 } :
          StreamsMap).incomingBidiStreams =
        (m.incomingBidiStreams.GetOrOpenStream id).2 from rfl,
        IncomingItemsMap.getOrOpen_closeErr]; exact h3, h4⟩
    | outgoingUni => exact ⟨h1, h2, h3, h4⟩
    | incomingUni => exact ⟨h1, h2, h3, h4⟩
  | delete id =>
    show AllClosed e (m.DeleteStream id)
    unfold StreamsMap.DeleteStream
    cases m.getStreamType id with
    | outgoingBidi =>
      exact ⟨by rw [show ({ m with outgoingBidiStreams :=
        (m.outgoingBidiStreams.DeleteStream id).2 } :
          StreamsMap).outgoingBidiStreams =
        (m.outgoingBidiStreams.DeleteStream id).2 from rfl,
        OutgoingItemsMap.delete_keeps_closeErr]; exact h1, h2, h3, h4⟩
    | incomingBidi =>
      exact ⟨h1, h2, by rw [show ({ m with incomingBidiStreams :=
        (m.incomingBidiStreams.DeleteStream id).2 } :
          StreamsMap).incomingBidiStreams =
        (m.incomingBidiStreams.DeleteStream id).2 from rfl,
        IncomingItemsMap.delete_preserves_closeErr]; exact h3, h4⟩
    | outgoingUni =>
      exact ⟨h1, by rw [show ({ m with outgoingUniStreams :=
        (m.outgoingUniStreams.DeleteStream id).2 } :
          StreamsMap).outgoingUniStreams =
        (m.outgoingUniStreams.DeleteStream id).2 from rfl,
        OutgoingItemsMap.delete_keeps_closeErr]; exact h2, h3, h4⟩
    | incomingUni =>
      exact ⟨h1, h2, h3, by rw [show ({ m with incomingUniStreams :=
        (m.incomingUniStreams.DeleteStream id).2 } :
          StreamsMap).incomingUniStreams =
        (m.incomingUniStreams.DeleteStream id).2 from rfl,
        IncomingItemsMap.delete_preserves_closeErr]; exact h4⟩
  | close e' => exact absurd hop (by simp [MOp.isClose])

/-- Along a close-free trace, `AllClosed` is preserved. -/
theorem runMOps_allClosed (e : Nat) :
    ∀ (ops : List MOp) (m : StreamsMap), noClose ops = true →
      AllClosed e m → AllClosed e (runMOps m ops) := by
  intro ops
  induction ops with
  | nil => intro m _ h; exact h
  | cons op rest ih =>
    intro m hno h
    have hsplit : op.isClose = false ∧ noClose rest = true := by
      simpa [noClose] using hno
    exact ih _ hsplit.2 (MOp.apply_allClosed e op m hsplit.1 h)

/-- C5: once `CloseWithError(e)` has been invoked on the streams manager, every
subsequent `OpenStream`, `OpenUniStream`, `AcceptStream` or `AcceptUniStream`
call — after any further close-free operations — returns exactly the latched
error `e`. -/
theorem close_latches_all_ops (m : StreamsMap) (e : Nat) (ops : List MOp)
    (hno : noClose ops = true) :
    (runMOps (m.CloseWithError e) ops).OpenStream.1 = .error e
    ∧ (runMOps (m.CloseWithError e) ops).OpenUniStream.1 = .error e
    ∧ (runMOps (m.CloseWithError e) ops).AcceptStream.1 = .err e
    ∧ (runMOps (m.CloseWithError e) ops).AcceptUniStream.1 = .err e := by
  have hAll : AllClosed e (runMOps (m.CloseWithError e) ops) :=
    runMOps_allClosed e ops (m.CloseWithError e) hno ⟨rfl, rfl, rfl, rfl⟩
  obtain ⟨h1, h2, h3, h4⟩ := hAll
  refine ⟨?_, ?_, ?_, ?_⟩
  · simp [StreamsMap.OpenStream, OutgoingItemsMap.OpenStream, h1]
  · simp [StreamsMap.OpenUniStream, OutgoingItemsMap.OpenStream, h2]
  · simp [StreamsMap.AcceptStream, IncomingItemsMap.AcceptStream, h3]
  · simp [StreamsMap.AcceptUniStream, IncomingItemsMap.AcceptStream, h4]

/-- C5 witness: `close_latches_all_ops` on the server-perspective manager
closed with error 7 followed by an open and a peer stream reference. -/
theorem close_latches_all_ops_witness :
    (runMOps ((newStreamsMap .server).CloseWithError 7)
        [.openStream, .getOrOpenReceive 4]).OpenStream.1 = .error 7
    ∧ (runMOps ((newStreamsMap .server).CloseWithError 7)
        [.openStream, .getOrOpenReceive 4]).OpenUniStream.1 = .error 7
    ∧ (runMOps ((newStreamsMap .server).CloseWithError 7)
        [.openStream, .getOrOpenReceive 4]).AcceptStream.1 = .err 7
    ∧ (runMOps ((newStreamsMap .server).CloseWithError 7)
        [.openStream, .getOrOpenReceive 4]).AcceptUniStream.1 = .err 7 :=
  close_latches_all_ops (newStreamsMap .server) 7
    [.openStream, .getOrOpenReceive 4] (by decide)

/-- C8: along every operation trace on one incoming quadrant, the IDs returned
by successful `AcceptStream` calls are strictly increasing, exactly 4 apart;
and each successful call returns the handle whose ID equals the current
`nextStream` cursor and then advances `nextStream` by 4. -/
theorem accept_ids_increase_by_four :
    (∀ (m : IncomingItemsMap) (ops : List IOp),
        List.Chain' (fun a b => b = a + 4) (runAccepts m ops).2)
    ∧ ∀ (m m' : IncomingItemsMap) (id : Nat),
        m.AcceptStream = (.stream id, m') →
        id = m.nextStream ∧ m'.nextStream = m.nextStream + 4 :=
  ⟨fun m ops => (runAccepts_chain ops m).1, acceptStream_success⟩

/-- C8 witness: `accept_ids_increase_by_four` applied to the quadrant state
holding stream 2 with `nextStream = 2`, whose accept succeeds with ID 2. -/
theorem accept_ids_increase_by_four_witness :
    (2 : Nat) =
      (⟨[2], 2, 2, none, []⟩ : IncomingItemsMap).nextStream
    ∧ (⟨[2], 6, 2, none, []⟩ : IncomingItemsMap).nextStream =
        (⟨[2], 2, 2, none, []⟩ : IncomingItemsMap).nextStream + 4 :=
  accept_ids_increase_by_four.2 ⟨[2], 2, 2, none, []⟩ ⟨[2], 6, 2, none, []⟩ 2
    (by decide)

/-- C10: `CloseWithError` on an incoming quadrant does not disable
`GetOrOpenStream` or `DeleteStream`: after the latch, `GetOrOpenStream` returns
the same result and performs the same state change (only the latch differs),
for an `id` above `highestStream` it still raises `highestStream` to `id` and
still inserts the whole batch of intermediate streams, and `DeleteStream`
succeeds or fails exactly as before — the `closeErr` latch is consulted only by
`AcceptStream`. -/
theorem close_does_not_disable_getOrOpen (m : IncomingItemsMap) (e id : Nat) :
    ((m.CloseWithError e).GetOrOpenStream id).1 = (m.GetOrOpenStream id).1
    ∧ ((m.CloseWithError e).GetOrOpenStream id).2 =
        ((m.GetOrOpenStream id).2).CloseWithError e
    ∧ (m.highestStream < id →
        ((m.CloseWithError e).GetOrOpenStream id).2.highestStream = id
        ∧ ((m.CloseWithError e).GetOrOpenStream id).2.streams =
            m.streams ++ openRange
              (if m.highestStream = 0 then m.nextStream else m.highestStream + 4)
              id)
    ∧ ∀ did, ((m.CloseWithError e).DeleteStream did).1 = (m.DeleteStream did).1 := by
  refine ⟨?_, ?_, ?_, ?_⟩
  · unfold IncomingItemsMap.GetOrOpenStream IncomingItemsMap.CloseWithError
    dsimp only
    split_ifs <;> rfl
  · unfold IncomingItemsMap.GetOrOpenStream IncomingItemsMap.CloseWithError
    dsimp only
    split_ifs <;> rfl
  · intro hlt
    unfold IncomingItemsMap.GetOrOpenStream IncomingItemsMap.CloseWithError
    dsimp only
    rw [if_neg (by omega)]
    exact ⟨rfl, rfl⟩
  · intro did
    unfold IncomingItemsMap.DeleteStream IncomingItemsMap.CloseWithError
    dsimp only
    split_ifs <;> rfl

/-- C10 witness: `close_does_not_disable_getOrOpen` on the fresh quadrant with
first ID 2, closed with error 9, then asked for stream 10. -/
theorem close_does_not_disable_getOrOpen_witness :
    (((newIncomingItemsMap 2).CloseWithError 9).GetOrOpenStream 10).2.highestStream
        = 10
    ∧ (((newIncomingItemsMap 2).CloseWithError 9).GetOrOpenStream 10).2.streams =
        (newIncomingItemsMap 2).streams ++ openRange
          (if (newIncomingItemsMap 2).highestStream = 0 then
            (newIncomingItemsMap 2).nextStream
          else (newIncomingItemsMap 2).highestStream + 4) 10 :=
  (close_does_not_disable_getOrOpen (newIncomingItemsMap 2) 9 10).2.2.1 (by decide)

/-- Membership in an incoming quadrant's ID space: the IDs at and above the
quadrant's first ID, spaced by 4. -/
def InClass (first k : Nat) : Prop := first ≤ k ∧ (k - first) % 4 = 0

instance (first k : Nat) : Decidable (InClass first k) :=
  inferInstanceAs (Decidable (first ≤ k ∧ (k - first) % 4 = 0))

/-- Inductive invariant of an incoming quadrant along well-formed traces from
the initial state: while nothing was requested the cursor still sits at the
first ID and the map is empty; `highestStream` is 0 or a quadrant ID; and every
quadrant ID up to `highestStream` that was never deleted is in the map. -/
def IncomingInv (first : Nat) (m : IncomingItemsMap) : Prop :=
  (m.highestStream = 0 → m.nextStream = first ∧ m.streams = [])
  ∧ (m.highestStream = 0 ∨ InClass first m.highestStream)
  ∧ ∀ k, InClass first k → k ≤ m.highestStream → k ∉ m.deletedGhost →
      k ∈ m.streams

/-- Well-formedness of a single quadrant operation: the manager dispatches
`GetOrOpenStream` to a quadrant only for IDs of that quadrant's residue class
(`streamsMap.getStreamType`). -/
def wfIOp (first : Nat) : IOp → Bool
  | .getOrOpen id => decide (InClass first id)
  | _ => true

/-- Trace well-formedness: every operation is well-formed. -/
def wfIOps (first : Nat) (ops : List IOp) : Bool :=
  ops.all (wfIOp first)

/-- Membership in the creation loop's ID batch, fuel version. -/
theorem openRangeAux_mem :
    ∀ (fuel start id k : Nat), id + 1 - start ≤ fuel →
      (k ∈ openRangeAux fuel start id ↔
        start ≤ k ∧ k ≤ id ∧ (k - start) % 4 = 0) := by
  intro fuel
  induction fuel with
  | zero =>
    intro start id k hn
    simp only [openRangeAux, List.not_mem_nil, false_iff]
    omega
  | succ n ih =>
    intro start id k hn
    simp only [openRangeAux]
    split
    next h =>
      rw [List.mem_cons, ih (start + 4) id k (by omega)]
      omega
    next h =>
      simp only [List.not_mem_nil, false_iff]
      omega

/-- Membership in the creation loop's ID batch. -/
theorem openRange_mem (start id k : Nat) :
    k ∈ openRange start id ↔ start ≤ k ∧ k ≤ id ∧ (k - start) % 4 = 0 :=
  openRangeAux_mem (id + 1 - start) start id k (Nat.le_refl _)

/-- `AcceptStream` preserves the quadrant invariant. -/
theorem inv_accept (first : Nat) (m : IncomingItemsMap)
    (h : IncomingInv first m) : IncomingInv first m.AcceptStream.2 := by
  obtain ⟨h1, h2, h3⟩ := h
  unfold IncomingItemsMap.AcceptStream
  cases hce : m.closeErr
  · dsimp only
    split
    next hc =>
      refine ⟨?_, h2, h3⟩
      intro h0
      obtain ⟨_, hs⟩ := h1 h0
      rw [hs] at hc
      simp at hc
    next => exact ⟨h1, h2, h3⟩
  · exact ⟨h1, h2, h3⟩

/-- `GetOrOpenStream` for a quadrant ID preserves the quadrant invariant. -/
theorem inv_getOrOpen (first : Nat) (_hf : 0 < first) (m : IncomingItemsMap)
    (id : Nat) (hid : InClass first id) (h : IncomingInv first m) :
    IncomingInv first (m.GetOrOpenStream id).2 := by
  obtain ⟨h1, h2, h3⟩ := h
  obtain ⟨hid1, hid2⟩ := hid
  unfold IncomingItemsMap.GetOrOpenStream
  dsimp only
  split
  next hle => exact ⟨h1, h2, h3⟩
  next hgt =>
    have hgt' : m.highestStream < id := by omega
    refine ⟨?_, ?_, ?_⟩
    · dsimp only
      intro h0
      exact absurd h0 (by omega)
    · dsimp only
      right; exact ⟨hid1, hid2⟩
    · dsimp only
      intro k hk hkle hkdel
      rw [List.mem_append]
      obtain ⟨hk1, hk2⟩ := hk
      by_cases hkh : k ≤ m.highestStream
      · left; exact h3 k ⟨hk1, hk2⟩ hkh hkdel
      · right
        rw [openRange_mem]
        by_cases h0 : m.highestStream = 0
        · obtain ⟨hn, _⟩ := h1 h0
          rw [if_pos h0, hn]
          omega
        · rw [if_neg h0]
          rcases h2 with h2 | h2
          · exact absurd h2 h0
          · obtain ⟨hc1, hc2⟩ := h2
            omega

/-- `DeleteStream` preserves the quadrant invariant. -/
theorem inv_delete (first : Nat) (m : IncomingItemsMap) (id : Nat)
    (h : IncomingInv first m) : IncomingInv first (m.DeleteStream id).2 := by
  obtain ⟨h1, h2, h3⟩ := h
  unfold IncomingItemsMap.DeleteStream
  split
  next hc =>
    refine ⟨?_, h2, ?_⟩
    · intro h0
      obtain ⟨hn, hs⟩ := h1 h0
      exact ⟨hn, by rw [hs]; rfl⟩
    · intro k hk hkle hkdel
      have hkne : k ≠ id := fun hkeq => hkdel (hkeq ▸ List.mem_cons_self ..)
      have hknotin : k ∉ m.deletedGhost :=
        fun hmem => hkdel (List.mem_cons_of_mem _ hmem)
      exact (List.mem_erase_of_ne hkne).mpr (h3 k hk hkle hknotin)
  next => exact ⟨h1, h2, h3⟩

/-- Any well-formed quadrant operation preserves the quadrant invariant. -/
theorem inv_apply (first : Nat) (hf : 0 < first) (op : IOp)
    (m : IncomingItemsMap) (hwf : wfIOp first op = true)
    (h : IncomingInv first m) : IncomingInv first (op.apply m) := by
  cases op with
  | accept => exact inv_accept first m h
  | getOrOpen id =>
    exact inv_getOrOpen first hf m id (by simpa [wfIOp] using hwf) h
  | delete id => exact inv_delete first m id h
  | close e => exact h

/-- Running a well-formed trace preserves the quadrant invariant. -/
theorem runIOps_inv (first : Nat) (hf : 0 < first) :
    ∀ (ops : List IOp) (m : IncomingItemsMap), wfIOps first ops = true →
      IncomingInv first m → IncomingInv first (runIOps m ops) := by
  intro ops
  induction ops with
  | nil => intro m _ h; exact h
  | cons op rest ih =>
    intro m hwf h
    have hsplit : wfIOp first op = true ∧ wfIOps first rest = true := by
      simpa [wfIOps, List.all_cons] using hwf
    exact ih _ hsplit.2 (inv_apply first hf op m hsplit.1 h)

/-- The invariant holds in the initial quadrant state. -/
theorem inv_init (first : Nat) (hf : 0 < first) :
    IncomingInv first (newIncomingItemsMap first) := by
  refine ⟨fun _ => ⟨rfl, rfl⟩, Or.inl rfl, ?_⟩
  intro k hk hkle _
  exfalso
  have h0 : k ≤ 0 := hkle
  obtain ⟨hk1, _⟩ := hk
  omega

/-- `GetOrOpenStream(id)` always leaves `highestStream` at least `id`. -/
theorem getOrOpen_highest (m : IncomingItemsMap) (id : Nat) :
    id ≤ (m.GetOrOpenStream id).2.highestStream := by
  unfold IncomingItemsMap.GetOrOpenStream
  split
  next hle => exact hle
  next => exact Nat.le_refl id

/-- C7: on an incoming quadrant, after any well-formed operation trace from the
initial state followed by `GetOrOpenStream(id)` for a quadrant ID `id`,
`highestStream` is at least `id`, and every quadrant ID `k ≤ id` that was not
explicitly deleted via `DeleteStream` is present in the streams map. -/
theorem getOrOpen_fills_class (first : Nat) (ops : List IOp) (id : Nat)
    (hf : 0 < first) (hwf : wfIOps first ops = true) (hid : InClass first id) :
    id ≤ ((runIOps (newIncomingItemsMap first) ops).GetOrOpenStream id).2.highestStream
    ∧ ∀ k, InClass first k → k ≤ id →
        k ∉ ((runIOps (newIncomingItemsMap first) ops).GetOrOpenStream
              id).2.deletedGhost →
        k ∈ ((runIOps (newIncomingItemsMap first) ops).GetOrOpenStream
              id).2.streams := by
  have hmInv : IncomingInv first (runIOps (newIncomingItemsMap first) ops) :=
    runIOps_inv first hf ops (newIncomingItemsMap first) hwf (inv_init first hf)
  have hfin := inv_getOrOpen first hf _ id hid hmInv
  refine ⟨getOrOpen_highest _ _, ?_⟩
  intro k hk hkle hkdel
  exact hfin.2.2 k hk (hkle.trans (getOrOpen_highest _ _)) hkdel

/-- C7 witness: `getOrOpen_fills_class` with first ID 2, the trace
`GetOrOpenStream(6); DeleteStream(2)`, and the final `GetOrOpenStream(10)`:
`highestStream` reaches 10 and the undeleted quadrant ID 6 is present. -/
theorem getOrOpen_fills_class_witness :
    10 ≤ ((runIOps (newIncomingItemsMap 2) [.getOrOpen 6, .delete 2]).GetOrOpenStream
          10).2.highestStream
    ∧ 6 ∈ ((runIOps (newIncomingItemsMap 2) [.getOrOpen 6, .delete 2]).GetOrOpenStream
          10).2.streams :=
  ⟨(getOrOpen_fills_class 2 [.getOrOpen 6, .delete 2] 10 (by decide) (by decide)
      (by decide)).1,
   (getOrOpen_fills_class 2 [.getOrOpen 6, .delete 2] 10 (by decide) (by decide)
      (by decide)).2 6 (by decide) (by decide) (by decide)⟩

/-- A step never resumes a waiting goroutine: only a `Signal`/`Broadcast`
could, and none occurs after the close. -/
theorem condStep_waiting_b {s s' : CondSys} (hst : CondStep s s')
    (hsb : s.b = .waiting) : s'.b = .waiting := by
  cases hst with
  | stepA h => exact hsb
  | stepB h => rw [hsb] at h; cases h

/-- Symmetric statement for goroutine `a`. -/
theorem condStep_waiting_a {s s' : CondSys} (hst : CondStep s s')
    (hsa : s.a = .waiting) : s'.a = .waiting := by
  cases hst with
  | stepA h => rw [hsa] at h; cases h
  | stepB h => exact hsa

/-- C6: with two `AcceptStream` calls blocked on one incoming quadrant, a
single `CloseWithError(e)` — which latches the error and then calls
`cond.Signal`, waking at most one waiter — never leads to a state where both
calls have returned `e` (the non-woken goroutine stays blocked forever),
although one interleaving does let one of the two calls return `e`.  The claim
(and spec scenario S7) demands that both calls return `e`, which would require a
broadcast. -/
theorem close_signal_strands_one_accepter (m : IncomingItemsMap) (e : Nat)
    (wakeB : Bool) :
    (∀ s', CondReach (closeWithErrorSys e wakeB ⟨m, .waiting, .waiting⟩) s' →
        ¬(s'.a = .done (.error e) ∧ s'.b = .done (.error e)))
    ∧ ∃ s', CondReach (closeWithErrorSys e wakeB ⟨m, .waiting, .waiting⟩) s'
        ∧ (s'.a = .done (.error e) ∨ s'.b = .done (.error e)) := by
  have hq : (m.CloseWithError e).AcceptStream = (.err e, m.CloseWithError e) := rfl
  cases wakeB
  · have hstart : closeWithErrorSys e false ⟨m, .waiting, .waiting⟩ =
        ⟨m.CloseWithError e, .running, .waiting⟩ := by
      simp [closeWithErrorSys]
    rw [hstart]
    constructor
    · have hreach : ∀ s', CondReach ⟨m.CloseWithError e, .running, .waiting⟩ s' →
          s'.b = .waiting := by
        intro s' hr
        induction hr with
        | refl => rfl
        | tail hsteps hstep ih => exact condStep_waiting_b hstep ih
      intro s' hr hboth
      rw [hreach s' hr] at hboth
      cases hboth.2
    · refine ⟨_, Relation.ReflTransGen.single
        (CondStep.stepA ⟨m.CloseWithError e, .running, .waiting⟩ rfl), ?_⟩
      left
      show threadAfter (m.CloseWithError e).AcceptStream.1 = .done (.error e)
      rw [hq]
      rfl
  · have hstart : closeWithErrorSys e true ⟨m, .waiting, .waiting⟩ =
        ⟨m.CloseWithError e, .waiting, .running⟩ := by
      simp [closeWithErrorSys]
    rw [hstart]
    constructor
    · have hreach : ∀ s', CondReach ⟨m.CloseWithError e, .waiting, .running⟩ s' →
          s'.a = .waiting := by
        intro s' hr
        induction hr with
        | refl => rfl
        | tail hsteps hstep ih => exact condStep_waiting_a hstep ih
      intro s' hr hboth
      rw [hreach s' hr] at hboth
      cases hboth.1
    · refine ⟨_, Relation.ReflTransGen.single
        (CondStep.stepB ⟨m.CloseWithError e, .waiting, .running⟩ rfl), ?_⟩
      right
      show threadAfter (m.CloseWithError e).AcceptStream.1 = .done (.error e)
      rw [hq]
      rfl

/-- C6 witness: `close_signal_strands_one_accepter` on the fresh quadrant with
first ID 4, error 7, with the runtime waking the first waiter: the start state
itself (reachable by the empty interleaving) does not have both accepters
returned. -/
theorem close_signal_strands_one_accepter_witness :
    ¬((closeWithErrorSys 7 false ⟨newIncomingItemsMap 4, .waiting, .waiting⟩).a =
          .done (.error 7)
      ∧ (closeWithErrorSys 7 false ⟨newIncomingItemsMap 4, .waiting, .waiting⟩).b =
          .done (.error 7)) :=
  (close_signal_strands_one_accepter (newIncomingItemsMap 4) 7 false).1 _
    Relation.ReflTransGen.refl

end QuicGo
